import Mathlib

/-!
Verification development for the VORTEX anomaly-scoring and explanation
pipeline (`src/model_train.py`, `src/xai_explainer.py`).

Numeric values are embedded as exact rationals (`ℚ`).  The external
libraries called by the source are embedded as follows:

* the fitted sklearn `IsolationForest` is an ensemble of binary decision
  trees (`ITree`); its `decision_function` value for a point is the sum of
  the per-tree leaf values reached by that point (`rawScore`), with the
  library's leaf-value rescaling folded into the stored leaf values;
* `shap.TreeExplainer(model)` (constructed without a background dataset,
  hence in path-dependent mode) is embedded by the Shapley values of the
  path-dependent tree game `modelGame`: for a feature subset `S` the game
  follows the split when the split feature is in `S` and otherwise takes
  the node-sample-weighted average of the two subtrees;
* Python `list.sort` (documented stable) is embedded by the stable
  insertion sort `sortDescBy`; the same `sortDescBy` also stands in for
  `pandas.sort_values`, whose default `kind='quicksort'` gives no
  tie-order guarantee — for that call the theorems below rely only on
  the sorted-permutation property of the result, never on its tie order;
* file-system reads are passed in as `Option` parameters, and Python
  exceptions caught by the source's `try/except` blocks become `none` /
  `Except.error` results.
-/

namespace Vortex

/-! ## Generic stable descending insertion sort (models Python stable sorts) -/

/-- Insert `a` into `l`, placing `a` before the first element whose key is
not larger; since earlier list elements are inserted later (by `foldr`-style
recursion in `sortDescBy`), ties keep their original relative order, which
models the documented stability of Python's `list.sort` (with
`reverse=True`). -/
def insertDescBy (key : α → ℚ) (a : α) : List α → List α
  | [] => [a]
  | b :: bs => if key b ≤ key a then a :: b :: bs else b :: insertDescBy key a bs

/-- Stable sort by non-increasing key. -/
def sortDescBy (key : α → ℚ) : List α → List α
  | [] => []
  | a :: l => insertDescBy key a (sortDescBy key l)

/-! ## Shapley values of a cooperative game on `Fin n` -/

/-- Set of players that come strictly before `i` in the ordering given by
the permutation `π` (player at position `k` is `π k`). -/
def predSet (π : Equiv.Perm (Fin n)) (i : Fin n) : Finset (Fin n) :=
  Finset.univ.filter (fun j => π.symm j < π.symm i)

/-- Set of the players occupying the first `m` positions of the ordering `π`. -/
def predSetUpTo (π : Equiv.Perm (Fin n)) (m : ℕ) : Finset (Fin n) :=
  Finset.univ.filter (fun j => (π.symm j : ℕ) < m)

/-- Marginal contribution of player `i` when the players join in the order `π`. -/
def marginal (v : Finset (Fin n) → ℚ) (π : Equiv.Perm (Fin n)) (i : Fin n) : ℚ :=
  v (insert i (predSet π i)) - v (predSet π i)

/-- Shapley value of player `i` in the game `v`: the average over all join
orders of the marginal contribution of `i`.  This is the attribution rule
implemented by `shap`; `shap_values[0][i]` is embedded as
`shapleyValue v i` for the game derived from the tree ensemble. -/
def shapleyValue (v : Finset (Fin n) → ℚ) (i : Fin n) : ℚ :=
  (∑ π : Equiv.Perm (Fin n), marginal v π i) / (Nat.factorial n : ℚ)

/-! ## Isolation-forest trees and the path-dependent tree game -/

/-- Binary decision tree over `n` features: internal nodes carry a split
feature, a split threshold and the training sample counts of the two
subtrees; leaves carry the (rescaled) leaf value. -/
inductive ITree (n : ℕ) where
  | leaf (value : ℚ)
  | node (feature : Fin n) (threshold : ℚ) (wl wr : ℕ) (left right : ITree n)
deriving DecidableEq

/-- Evaluate a tree at a point: go left when the feature value is at most
the threshold (the sklearn convention). -/
def treeEval (x : Fin n → ℚ) : ITree n → ℚ
  | .leaf v => v
  | .node f thr _ _ l r => if x f ≤ thr then treeEval x l else treeEval x r

/-- Path-dependent tree game: features inside the coalition `S` follow the
point `x` through the splits; features outside `S` are averaged out using
the training sample counts stored at the node.  This is the conditional
expectation used by `shap.TreeExplainer` when no background dataset is
supplied. -/
def treeGame (x : Fin n → ℚ) (S : Finset (Fin n)) : ITree n → ℚ
  | .leaf v => v
  | .node f thr wl wr l r =>
    if f ∈ S then (if x f ≤ thr then treeGame x S l else treeGame x S r)
    else ((wl : ℚ) * treeGame x S l + (wr : ℚ) * treeGame x S r) / ((wl : ℚ) + (wr : ℚ))

/-- Fitted isolation forest: a list of trees (the ensemble). -/
structure IForestModel (n : ℕ) where
  trees : List (ITree n)
deriving DecidableEq

/-- Raw model output (the `decision_function` value as seen by the
explainer): sum of the per-tree evaluations, the library's rescaling of
leaf values being folded into the stored leaf values. -/
def rawScore (m : IForestModel n) (x : Fin n → ℚ) : ℚ :=
  (m.trees.map (treeEval x)).sum

/-- The cooperative game of the whole ensemble at the point `x`. -/
def modelGame (m : IForestModel n) (x : Fin n → ℚ) (S : Finset (Fin n)) : ℚ :=
  (m.trees.map (treeGame x S)).sum

/-! ## Embedding of `src/model_train.py` -/

/-- Placeholder default for `List.getD` lookups; never reached for indices
below the feature count. -/
def defaultName : String := ""

/-- Column name of the ground-truth label, `model_train.py` line 55. -/
def truthCol : String := "anomaly_flag_truth"

/-- Column name of the event identifier. -/
def eventCol : String := "event_id"

/-- Column name of the persisted score, `model_train.py` line 155. -/
def scoreCol : String := "anomaly_score"

/-- The fixed feature list of `model_train.py` lines 27-39. -/
def MODEL_FEATURES : List String :=
  [ "sensitive_file_access",
    "external_ip_connection",
    "is_weekend",
    "is_off_hours",
    "sin_hour",
    "cos_hour",
    "file_access_count_zscore",
    "upload_size_mb_zscore",
    "total_files_24h_zscore",
    "avg_upload_24h_zscore",
    "event_count_24h_zscore" ]

/-- Number of trained features. -/
def NF : ℕ := 11

/-- A raw CSV table as read by `pd.read_csv` in `model_train.py`: a header
(list of column names) and one numeric valuation per row.  A column is
present exactly when its name occurs in `cols`. -/
structure RawTable where
  cols : List String
  rows : List (String → ℚ)

/-- Failure taxonomy of the training stage (spec section 7):
`DataUnavailable` models the early missing-file return of
`load_and_prepare_data` (lines 43-46), the `EmptyDataError` that
`pd.read_csv` raises at line 49 on a file with no parseable columns, and
the `ValueError` that `model.fit` raises on a zero-row table;
`SchemaMismatch` models the `KeyError` raised by `df[MODEL_FEATURES]` /
`df[...]` column selection on a parsed table lacking a required column
(lines 52-55). -/
inductive TrainError where
  | DataUnavailable
  | SchemaMismatch
deriving DecidableEq

/-- Feature vector of a raw row, in `MODEL_FEATURES` order. -/
def rowFeatures (r : String → ℚ) : Fin NF → ℚ :=
  fun i => r (MODEL_FEATURES.getD (i : ℕ) defaultName)

/-- Embedding of `load_and_prepare_data` (`model_train.py` lines 41-60):
a missing file is the `none` input and yields `DataUnavailable`.  A file
with no parseable columns at all makes `pd.read_csv` raise
`EmptyDataError` already at line 49 — an empty-input failure,
`DataUnavailable` — before any column access; only a table with a
parseable header reaches line 52, where a missing feature column (line
52) or a missing ground-truth column (line 55) raises `KeyError`, i.e.
`SchemaMismatch`.  (`X.fillna(0)` is a no-op in the rational embedding,
which has no NaN.) -/
def load_and_prepare_data : Option RawTable → Except TrainError RawTable
  | none => .error .DataUnavailable
  | some t =>
    if t.cols.isEmpty then .error .DataUnavailable
    else if MODEL_FEATURES.all (fun c => t.cols.contains c) then
      if t.cols.contains truthCol then .ok t
      else .error .SchemaMismatch
    else .error .SchemaMismatch

/-- Embedding of `train_isolation_forest` (`model_train.py` lines 62-84):
the sklearn fitting algorithm itself is the external library, passed in as
the function `fit`; `model.fit` raises `ValueError` on a zero-row input,
modelled as `DataUnavailable`. -/
def train_isolation_forest (fit : RawTable → IForestModel NF) (t : RawTable) :
    Except TrainError (IForestModel NF) :=
  if t.rows.isEmpty then .error .DataUnavailable else .ok (fit t)

/-- The raw per-row score of `model.decision_function`
(`model_train.py` line 102), under the embedding of the fitted model. -/
def decision_function (m : IForestModel NF) (x : Fin NF → ℚ) : ℚ :=
  rawScore m x

/-- Embedding of `model_training_pipeline` (`model_train.py` lines
137-157): load, fit, then attach to every row the persisted score
`anomaly_score := -decision_function` (line 155) and write the scored
table back.  The result pairs the saved model with the scored rows. -/
def model_training_pipeline (fit : RawTable → IForestModel NF)
    (file : Option RawTable) :
    Except TrainError (IForestModel NF × List ((String → ℚ) × ℚ)) :=
  Except.bind (load_and_prepare_data file) (fun t =>
    Except.bind (train_isolation_forest fit t) (fun m =>
      .ok (m, t.rows.map (fun r => (r, - decision_function m (rowFeatures r))))))

/-! ## Embedding of `src/xai_explainer.py` -/

/-- An event identifier is a string or an integer (the types accepted by
the `isinstance` check at `xai_explainer.py` lines 130-133). -/
inductive EventId where
  | str (s : String)
  | int (z : ℤ)
deriving DecidableEq

/-- Python `str(event_id)` (`xai_explainer.py` line 203). -/
def idToString : EventId → String
  | .str s => s
  | .int z => toString z

/-- One row of the scored table consumed by the explainer: event
identifier, feature vector (in `MODEL_FEATURES` order) and the persisted
`anomaly_score`. -/
structure Row where
  event_id : EventId
  features : Fin NF → ℚ
  anomaly_score : ℚ

/-- The scored table together with its CSV header, as read by
`load_data_and_model`. -/
structure ScoredTable where
  cols : List String
  rows : List Row

/-- One element of the `explanation` list built at `xai_explainer.py`
lines 192-197. -/
structure ExplanationItem where
  feature : String
  value_at_risk : ℚ
  shap_contribution : ℚ
  is_high_risk_contributor : Bool

instance : Inhabited ExplanationItem :=
  ⟨⟨defaultName, 0, 0, false⟩⟩

/-- The result dictionary of `generate_shap_explanations`
(`xai_explainer.py` lines 202-206). -/
structure ExplanationResult where
  event_id : String
  base_value : ℚ
  explanation : List ExplanationItem

/-- The explanation entry for feature `i` (`xai_explainer.py` lines
188-197): the SHAP contribution is the Shapley value of feature `i` in the
ensemble game at the explained point, and
`is_high_risk_contributor = (shap_values[0][i] < 0)` (line 190). -/
def entryOf (m : IForestModel NF) (x : Fin NF → ℚ) (i : Fin NF) : ExplanationItem :=
  { feature := MODEL_FEATURES.getD (i : ℕ) defaultName
    value_at_risk := x i
    shap_contribution := shapleyValue (modelGame m x) i
    is_high_risk_contributor := decide (shapleyValue (modelGame m x) i < 0) }

/-- The unsorted explanation list, one entry per trained feature in
`MODEL_FEATURES` order (the `for i, feature in enumerate(MODEL_FEATURES)`
loop at line 188). -/
def explanationEntries (m : IForestModel NF) (x : Fin NF → ℚ) : List ExplanationItem :=
  (List.finRange NF).map (entryOf m x)

/-- Sorting key of `explanation_data.sort(key=..., reverse=True)`
(`xai_explainer.py` line 200). -/
def contributionKey (e : ExplanationItem) : ℚ :=
  |e.shap_contribution|

/-- The explanation built for one selected row (`xai_explainer.py` lines
169-206): `base_value` is `explainer.expected_value`, i.e. the value of
the empty coalition in the tree game, and the entries are sorted by
descending absolute contribution with Python's stable sort. -/
def explainRow (m : IForestModel NF) (x : Fin NF → ℚ) (eidStr : String) :
    ExplanationResult :=
  { event_id := eidStr
    base_value := modelGame m x ∅
    explanation := sortDescBy contributionKey (explanationEntries m x) }

/-- Event selection of `generate_shap_explanations` (`xai_explainer.py`
lines 148-167): with an `event_id`, the first row matching it exactly
(`df[df['event_id'] == event_id]`, then row 0 of the match); without one,
the head of the table sorted by descending `anomaly_score`
(`df.sort_values(by='anomaly_score', ascending=False).iloc[0]`).  The
sort is represented by the concrete `sortDescBy`; since pandas' default
`kind='quicksort'` is not stable, no theorem relies on which row of
several tied maximal rows this branch picks — only on the permutation
and sortedness of the result.  `none` is the `EventNotFound` failure
(lines 150-152) or the `IndexError` of `.iloc[0]` on an empty table,
both of which make the function return `None`. -/
def selectEvent (df : List Row) : Option EventId → Option Row
  | some eid =>
    match df.filter (fun r => decide (r.event_id = eid)) with
    | [] => none
    | r :: _ => some r
  | none =>
    match sortDescBy (fun r => r.anomaly_score) df with
    | [] => none
    | r :: _ => some r

/-- The identifier reported for the explained event: the requested one
when given, otherwise the identifier of the highest-risk row
(`event_id = highest_risk_event['event_id']`, line 164). -/
def chosenId (event_id : Option EventId) (r : Row) : EventId :=
  match event_id with
  | some e => e
  | none => r.event_id

/-- Embedding of `generate_shap_explanations` (`xai_explainer.py` lines
113-213).  All exceptions are caught by the enclosing `try/except` and
become `None`, embedded as `none`; on success the result's `event_id`
field is `str(event_id)` of the explained event. -/
def generate_shap_explanations (df : List Row) (m : IForestModel NF) :
    Option EventId → Option ExplanationResult
  | some eid =>
    match df.filter (fun r => decide (r.event_id = eid)) with
    | [] => none
    | r :: _ => some (explainRow m r.features (idToString eid))
  | none =>
    match sortDescBy (fun r => r.anomaly_score) df with
    | [] => none
    | r :: _ => some (explainRow m r.features (idToString r.event_id))

/-- Failure of the directory-containment check. -/
inductive PathError where
  | PathEscape
deriving DecidableEq

/-- Lexical part of `Path.resolve()`: normalise `.` and `..` components
of an absolute path (symlink resolution is outside the embedding). -/
def resolvePath (l : List String) : List String :=
  l.foldl
    (fun acc c =>
      if c = ".." then acc.dropLast
      else if c = "." then acc
      else acc ++ [c])
    []

/-- Component-wise directory containment: `withinDir a r = true` iff the
component list `a` is an initial segment of `r`.  This is
`resolved_path.is_relative_to(allowed_path)` for already-resolved absolute
paths. -/
def withinDir : List String → List String → Bool
  | [], _ => true
  | _ :: _, [] => false
  | a :: as, b :: bs => a == b && withinDir as bs

/-- Embedding of `validate_file_path` (`xai_explainer.py` lines 39-50):
resolve both paths, fail with `PathEscape` (the raised `ValueError`) when
the resolved path is not inside the allowed directory, otherwise return
the resolved path. -/
def validate_file_path (file_path allowed_dir : List String) :
    Except PathError (List String) :=
  if withinDir (resolvePath allowed_dir) (resolvePath file_path)
  then .ok (resolvePath file_path)
  else .error .PathEscape

/-- The object loaded from the model artifact file: either a fitted
isolation forest or some other pickled object (rejected by the
`isinstance(model, IsolationForest)` check at lines 101-103). -/
inductive LoadedModel where
  | isolationForest (m : IForestModel NF)
  | otherArtifact

/-- Columns required of the scored table (`xai_explainer.py` line 83). -/
def requiredCols : List String := MODEL_FEATURES ++ [eventCol, scoreCol]

/-- Embedding of `load_data_and_model` (`xai_explainer.py` lines 60-110):
validate both configured paths, then read the two files (passed in as
`Option` arguments, `none` meaning the file does not exist), check the
required columns and the model type.  Every failure path, including the
exception raised by `validate_file_path`, is caught by the enclosing
`try/except` and becomes `(None, None)`, embedded as `none`. -/
def load_data_and_model (dataPath dataDir modelPath modelDir : List String)
    (dataFile : Option ScoredTable) (modelFile : Option LoadedModel) :
    Option (ScoredTable × IForestModel NF) :=
  match validate_file_path dataPath dataDir with
  | .error _ => none
  | .ok _ =>
    match validate_file_path modelPath modelDir with
    | .error _ => none
    | .ok _ =>
      match dataFile with
      | none => none
      | some table =>
        if requiredCols.all (fun c => table.cols.contains c) then
          match modelFile with
          | none => none
          | some (.isolationForest m) => some (table, m)
          | some .otherArtifact => none
        else none

/-- Embedding of `xai_pipeline` (`xai_explainer.py` lines 216-266): the
result of `load_data_and_model` is passed in; a failed load returns
`None`, otherwise the explanation of `generate_shap_explanations` is
returned unchanged (logging aside). -/
def xai_pipeline (loaded : Option (ScoredTable × IForestModel NF))
    (event_id : Option EventId) : Option ExplanationResult :=
  match loaded with
  | none => none
  | some (table, m) => generate_shap_explanations table.rows m event_id

/-! ## Concrete sample data used to exercise the theorems -/

/-- A trivially fitted model (empty ensemble). -/
def sampleModel : IForestModel NF := ⟨[]⟩

/-- A sample scored row with a string identifier. -/
def sampleRow : Row :=
  { event_id := EventId.str ("E1"), features := fun _ => 0, anomaly_score := 1 }

/-- A sample scored row with an integer identifier. -/
def sampleRowInt : Row :=
  { event_id := EventId.int 5, features := fun _ => 0, anomaly_score := 0 }

/-- The explanation of `sampleRow` under `sampleModel`. -/
def sampleExplanation : ExplanationResult :=
  explainRow sampleModel sampleRow.features (idToString (chosenId none sampleRow))

/-- A sample raw CSV row. -/
def sampleRawRow : String → ℚ := fun _ => 0

/-- A one-row training table with all required columns. -/
def sampleTrainTable : RawTable :=
  { cols := MODEL_FEATURES ++ [truthCol], rows := [sampleRawRow] }

/-- A training table with all required columns but zero rows. -/
def emptyRowsTable : RawTable :=
  { cols := MODEL_FEATURES ++ [truthCol], rows := [] }

/-- A training table with no parseable columns at all (the file on which
`pd.read_csv` raises `EmptyDataError`). -/
def emptyColsTable : RawTable := { cols := [], rows := [] }

/-- A present header-only table: a parseable header consisting of the
single column `event_id`, zero data rows, and no required feature column
(the CSV file containing only the header line). -/
def headerOnlyTable : RawTable := { cols := [eventCol], rows := [] }

/-- An external fitting routine returning the trivial model. -/
def constFit : RawTable → IForestModel NF := fun _ => sampleModel

/-- The scored output of the pipeline on `sampleTrainTable`. -/
def sampleScored : List ((String → ℚ) × ℚ) :=
  [(sampleRawRow, - decision_function sampleModel (rowFeatures sampleRawRow))]

end Vortex

namespace Vortex

/-! ## Lemmas: stable sort -/

theorem insertDescBy_perm (key : α → ℚ) (a : α) :
    ∀ l : List α, List.Perm (insertDescBy key a l) (a :: l) := by
  intro l
  induction l with
  | nil => rfl
  | cons b bs ih =>
    by_cases h : key b ≤ key a
    · simp [insertDescBy, h]
    · simp only [insertDescBy, if_neg h]
      exact (List.Perm.cons b ih).trans (List.Perm.swap a b bs)

theorem sortDescBy_perm (key : α → ℚ) :
    ∀ l : List α, List.Perm (sortDescBy key l) l := by
  intro l
  induction l with
  | nil => rfl
  | cons a l ih =>
    exact (insertDescBy_perm key a (sortDescBy key l)).trans (List.Perm.cons a ih)

theorem sortDescBy_length (key : α → ℚ) (l : List α) :
    (sortDescBy key l).length = l.length :=
  (sortDescBy_perm key l).length_eq

theorem insertDescBy_pairwise (key : α → ℚ) (R : α → α → Prop) (a : α)
    (l : List α)
    (hl : l.Pairwise (fun x y => key y < key x ∨ (key y = key x ∧ R x y)))
    (ha : ∀ b ∈ l, R a b) :
    (insertDescBy key a l).Pairwise
      (fun x y => key y < key x ∨ (key y = key x ∧ R x y)) := by
  induction l with
  | nil => simp [insertDescBy]
  | cons b bs ih =>
    rcases List.pairwise_cons.mp hl with ⟨hb, hbs⟩
    by_cases h : key b ≤ key a
    · rw [insertDescBy, if_pos h]
      refine List.pairwise_cons.mpr ⟨?_, hl⟩
      intro y hy
      rcases List.mem_cons.mp hy with h1 | h2
      · subst h1
        rcases lt_or_eq_of_le h with hlt | heq
        · exact Or.inl hlt
        · exact Or.inr ⟨heq, ha y (List.mem_cons_self y bs)⟩
      · have hyb := hb y h2
        have hya : key y ≤ key a := by
          rcases hyb with h3 | h3
          · exact le_trans (le_of_lt h3) h
          · exact le_trans (le_of_eq h3.1) h
        rcases lt_or_eq_of_le hya with hlt | heq
        · exact Or.inl hlt
        · exact Or.inr ⟨heq, ha y (List.mem_cons_of_mem b h2)⟩
    · rw [insertDescBy, if_neg h]
      refine List.pairwise_cons.mpr ⟨?_, ih hbs (fun c hc => ha c (List.mem_cons_of_mem b hc))⟩
      intro y hy
      have hy2 := (insertDescBy_perm key a bs).mem_iff.mp hy
      rcases List.mem_cons.mp hy2 with h1 | h2
      · subst h1
        exact Or.inl (lt_of_not_le h)
      · exact hb y h2

theorem sortDescBy_pairwise (key : α → ℚ) (R : α → α → Prop) :
    ∀ l : List α, l.Pairwise R →
      (sortDescBy key l).Pairwise
        (fun x y => key y < key x ∨ (key y = key x ∧ R x y)) := by
  intro l
  induction l with
  | nil => intro _; simp [sortDescBy]
  | cons a t ih =>
    intro hl
    rcases List.pairwise_cons.mp hl with ⟨ha, ht⟩
    refine insertDescBy_pairwise key R a (sortDescBy key t) (ih ht) ?_
    intro b hb
    exact ha b ((sortDescBy_perm key t).mem_iff.mp hb)

/-! ## Lemmas: Shapley efficiency -/

theorem predSetUpTo_zero (π : Equiv.Perm (Fin n)) : predSetUpTo π 0 = ∅ := by
  ext j; simp [predSetUpTo]

theorem predSetUpTo_top (π : Equiv.Perm (Fin n)) : predSetUpTo π n = Finset.univ := by
  ext j; simp [predSetUpTo, (π.symm j).isLt]

theorem predSet_apply (π : Equiv.Perm (Fin n)) (k : Fin n) :
    predSet π (π k) = predSetUpTo π (k : ℕ) := by
  ext j
  simp only [predSet, predSetUpTo, Finset.mem_filter, Finset.mem_univ, true_and,
    Equiv.symm_apply_apply, Fin.lt_def]

theorem predSet_insert_apply (π : Equiv.Perm (Fin n)) (k : Fin n) :
    insert (π k) (predSet π (π k)) = predSetUpTo π ((k : ℕ) + 1) := by
  ext j
  simp only [Finset.mem_insert, predSet_apply, predSetUpTo, Finset.mem_filter,
    Finset.mem_univ, true_and]
  rw [Nat.lt_succ_iff_lt_or_eq]
  constructor
  · rintro (h | h)
    · subst h; right; simp
    · left; exact h
  · rintro (h | h)
    · right; exact h
    · left
      have : π.symm j = k := Fin.ext h
      rw [← this, Equiv.apply_symm_apply]

theorem sum_marginal (v : Finset (Fin n) → ℚ) (π : Equiv.Perm (Fin n)) :
    ∑ i, marginal v π i = v Finset.univ - v ∅ := by
  rw [← Equiv.sum_comp π (marginal v π)]
  have hstep : ∀ k : Fin n, marginal v π (π k) =
      v (predSetUpTo π ((k : ℕ) + 1)) - v (predSetUpTo π (k : ℕ)) := by
    intro k
    rw [marginal, predSet_insert_apply, predSet_apply]
  calc ∑ k : Fin n, marginal v π (π k)
      = ∑ k : Fin n, (v (predSetUpTo π ((k : ℕ) + 1)) - v (predSetUpTo π (k : ℕ))) := by
        exact Finset.sum_congr rfl (fun k _ => hstep k)
    _ = ∑ m ∈ Finset.range n, (v (predSetUpTo π (m + 1)) - v (predSetUpTo π m)) := by
        exact Fin.sum_univ_eq_sum_range
          (fun m => v (predSetUpTo π (m + 1)) - v (predSetUpTo π m)) n
    _ = v (predSetUpTo π n) - v (predSetUpTo π 0) :=
        Finset.sum_range_sub (fun m => v (predSetUpTo π m)) n
    _ = v Finset.univ - v ∅ := by rw [predSetUpTo_top, predSetUpTo_zero]

/-- Efficiency of the Shapley value: the contributions of all players sum
to the value of the grand coalition minus the value of the empty
coalition.  This is the additive-decomposition identity of SHAP. -/
theorem shapley_efficiency (v : Finset (Fin n) → ℚ) :
    ∑ i, shapleyValue v i = v Finset.univ - v ∅ := by
  unfold shapleyValue
  rw [← Finset.sum_div, Finset.sum_comm]
  have hin : ∀ π ∈ (Finset.univ : Finset (Equiv.Perm (Fin n))),
      ∑ i, marginal v π i = v Finset.univ - v ∅ :=
    fun π _ => sum_marginal v π
  rw [Finset.sum_congr rfl hin, Finset.sum_const, Finset.card_univ,
    Fintype.card_perm, Fintype.card_fin, nsmul_eq_mul]
  exact mul_div_cancel_left₀ _ (Nat.cast_ne_zero.mpr (Nat.factorial_ne_zero n))

/-! ## Lemmas: game vs. raw model output -/

theorem treeGame_univ (x : Fin n → ℚ) (t : ITree n) :
    treeGame x Finset.univ t = treeEval x t := by
  induction t with
  | leaf v => rfl
  | node f thr wl wr l r ihl ihr => simp [treeGame, treeEval, ihl, ihr]

theorem modelGame_univ (m : IForestModel n) (x : Fin n → ℚ) :
    modelGame m x Finset.univ = rawScore m x := by
  unfold modelGame rawScore
  congr 1
  exact List.map_congr_left (fun t _ => treeGame_univ x t)

/-! ## Lemmas: the explanation construction -/

theorem finRange_map_getD :
    (List.finRange NF).map (fun i : Fin NF => MODEL_FEATURES.getD (i : ℕ) defaultName)
      = MODEL_FEATURES := by
  decide

theorem indexOf_getD (i : Fin NF) :
    MODEL_FEATURES.indexOf (MODEL_FEATURES.getD (i : ℕ) defaultName) = (i : ℕ) := by
  revert i
  decide

theorem explanationEntries_length (m : IForestModel NF) (x : Fin NF → ℚ) :
    (explanationEntries m x).length = NF := by
  rw [explanationEntries, List.length_map, List.length_finRange]

theorem explainRow_explanation_length (m : IForestModel NF) (x : Fin NF → ℚ)
    (s : String) : (explainRow m x s).explanation.length = NF := by
  rw [explainRow]
  rw [sortDescBy_length, explanationEntries_length]

theorem explainRow_explanation_ne_nil (m : IForestModel NF) (x : Fin NF → ℚ)
    (s : String) : (explainRow m x s).explanation ≠ [] := by
  intro h
  have := explainRow_explanation_length m x s
  rw [h] at this
  exact absurd this.symm (by decide)

theorem mem_explainRow_explanation (m : IForestModel NF) (x : Fin NF → ℚ)
    (s : String) (e : ExplanationItem) :
    e ∈ (explainRow m x s).explanation ↔ ∃ i : Fin NF, e = entryOf m x i := by
  rw [explainRow]
  rw [(sortDescBy_perm contributionKey (explanationEntries m x)).mem_iff]
  rw [explanationEntries, List.mem_map]
  constructor
  · rintro ⟨i, _, h⟩
    exact ⟨i, h.symm⟩
  · rintro ⟨i, h⟩
    exact ⟨i, List.mem_finRange i, h.symm⟩

theorem headI_mem {β : Type} [Inhabited β] (l : List β) (h : l ≠ []) :
    l.headI ∈ l := by
  cases l with
  | nil => exact absurd rfl h
  | cons a t => exact List.mem_cons_self a t

/-- The returned result determined by the selected event: relates
`generate_shap_explanations` to `selectEvent` and `explainRow`. -/
theorem generate_eq_of_select (df : List Row) (m : IForestModel NF)
    (eid : Option EventId) (r : Row) (h : selectEvent df eid = some r) :
    generate_shap_explanations df m eid =
      some (explainRow m r.features (idToString (chosenId eid r))) := by
  cases eid with
  | some e =>
    simp only [selectEvent] at h
    simp only [generate_shap_explanations, chosenId]
    cases hf : df.filter (fun r2 => decide (r2.event_id = e)) with
    | nil => rw [hf] at h; exact absurd h (by simp)
    | cons r0 rest =>
      rw [hf] at h
      have : r0 = r := by
        have h2 : some r0 = some r := h
        exact Option.some.inj h2
      subst this
      rfl
  | none =>
    simp only [selectEvent] at h
    simp only [generate_shap_explanations, chosenId]
    cases hs : sortDescBy (fun r2 => r2.anomaly_score) df with
    | nil => rw [hs] at h; exact absurd h (by simp)
    | cons r0 rest =>
      rw [hs] at h
      have : r0 = r := by
        have h2 : some r0 = some r := h
        exact Option.some.inj h2
      subst this
      rfl

/-- Conversely, a successful explanation comes from a selected event. -/
theorem select_of_generate (df : List Row) (m : IForestModel NF)
    (eid : Option EventId) (res : ExplanationResult)
    (h : generate_shap_explanations df m eid = some res) :
    ∃ r, selectEvent df eid = some r ∧
      res = explainRow m r.features (idToString (chosenId eid r)) := by
  cases eid with
  | some e =>
    simp only [generate_shap_explanations] at h
    simp only [selectEvent, chosenId]
    cases hf : df.filter (fun r2 => decide (r2.event_id = e)) with
    | nil => rw [hf] at h; exact absurd h (by simp)
    | cons r0 rest =>
      rw [hf] at h
      have h2 : some (explainRow m r0.features (idToString e)) = some res := h
      exact ⟨r0, rfl, (Option.some.inj h2).symm⟩
  | none =>
    simp only [generate_shap_explanations] at h
    simp only [selectEvent, chosenId]
    cases hs : sortDescBy (fun r2 => r2.anomaly_score) df with
    | nil => rw [hs] at h; exact absurd h (by simp)
    | cons r0 rest =>
      rw [hs] at h
      have h2 : some (explainRow m r0.features (idToString r0.event_id)) = some res := h
      exact ⟨r0, rfl, (Option.some.inj h2).symm⟩

/-- Sum of the sorted contributions: the additive decomposition. -/
theorem explainRow_sum (m : IForestModel NF) (x : Fin NF → ℚ) (s : String) :
    (explainRow m x s).base_value
      + ((explainRow m x s).explanation.map ExplanationItem.shap_contribution).sum
      = rawScore m x := by
  have hperm : List.Perm
      ((explainRow m x s).explanation.map ExplanationItem.shap_contribution)
      ((explanationEntries m x).map ExplanationItem.shap_contribution) :=
    List.Perm.map _ (sortDescBy_perm contributionKey (explanationEntries m x))
  have hsum : ((explanationEntries m x).map ExplanationItem.shap_contribution).sum
      = ∑ i, shapleyValue (modelGame m x) i := by
    rw [explanationEntries, List.map_map]
    rw [Fin.sum_univ_def]
    rfl
  show modelGame m x ∅ + _ = _
  rw [hperm.sum_eq, hsum, shapley_efficiency, modelGame_univ]
  ring

end Vortex

namespace Vortex

/-! ## Lemmas: path containment -/

theorem withinDir_iff : ∀ a r : List String,
    withinDir a r = true ↔ ∃ rest, a ++ rest = r := by
  intro a
  induction a with
  | nil => intro r; simp [withinDir]
  | cons x xs ih =>
    intro r
    cases r with
    | nil =>
      simp [withinDir]
    | cons y ys =>
      rw [withinDir, Bool.and_eq_true, beq_iff_eq, ih ys]
      constructor
      · rintro ⟨rfl, rest, rfl⟩
        exact ⟨rest, rfl⟩
      · rintro ⟨rest, hr⟩
        injection hr with h1 h2
        exact ⟨h1, rest, h2⟩

/-! ## Claim theorems -/

/-- Claim C1: for every event explained by the Attribution Engine
(`generate_shap_explanations`), the returned `base_value` plus the sum of
the `shap_contribution` values over all features equals the model's raw
decision-function output for that event (exactly, the rational embedding
having no floating-point rounding). -/
theorem claim_C1 (df : List Row) (m : IForestModel NF) (eid : Option EventId)
    (res : ExplanationResult)
    (h : generate_shap_explanations df m eid = some res)
    (r : Row) (hr : selectEvent df eid = some r) :
    res.base_value + (res.explanation.map ExplanationItem.shap_contribution).sum
      = decision_function m r.features := by
  obtain ⟨r2, hr2, hres⟩ := select_of_generate df m eid res h
  rw [hr] at hr2
  cases Option.some.inj hr2
  subst hres
  exact explainRow_sum m r.features _

theorem claim_C1_witness :
    Vortex.sampleExplanation.base_value
      + (Vortex.sampleExplanation.explanation.map ExplanationItem.shap_contribution).sum
      = decision_function sampleModel sampleRow.features :=
  claim_C1 [sampleRow] sampleModel none sampleExplanation rfl sampleRow rfl

/-- Claim C2: every row of the scored table written back by
`model_training_pipeline` carries a persisted `anomaly_score` that is
exactly the negation of the model's raw decision-function score for that
row, so the persisted score is strictly order-reversing in the raw score
with no additional transform. -/
theorem claim_C2 (fit : RawTable → IForestModel NF) (file : Option RawTable)
    (m : IForestModel NF) (scored : List ((String → ℚ) × ℚ))
    (h : model_training_pipeline fit file = .ok (m, scored)) :
    (∀ p ∈ scored, p.2 = - decision_function m (rowFeatures p.1)) ∧
    (∀ p ∈ scored, ∀ q ∈ scored,
      (decision_function m (rowFeatures p.1) < decision_function m (rowFeatures q.1)
        ↔ q.2 < p.2)) := by
  unfold model_training_pipeline at h
  cases hl : load_and_prepare_data file with
  | error e => rw [hl] at h; exact absurd h (by simp [Except.bind])
  | ok t =>
    rw [hl] at h
    simp only [Except.bind] at h
    cases ht : train_isolation_forest fit t with
    | error e => rw [ht] at h; exact absurd h (by simp [Except.bind])
    | ok m2 =>
      rw [ht] at h
      simp only [Except.bind] at h
      have h2 : (m2, t.rows.map
          (fun r => (r, - decision_function m2 (rowFeatures r)))) = (m, scored) :=
        Except.ok.inj h
      injection h2 with hm hsc
      subst hm
      subst hsc
      constructor
      · intro p hp
        obtain ⟨r, _, rfl⟩ := List.mem_map.mp hp
        rfl
      · intro p hp q hq
        obtain ⟨r, _, rfl⟩ := List.mem_map.mp hp
        obtain ⟨s, _, rfl⟩ := List.mem_map.mp hq
        exact neg_lt_neg_iff.symm

theorem claim_C2_witness :
    (sampleRawRow, - decision_function sampleModel (rowFeatures sampleRawRow)).2 =
      - decision_function sampleModel
          (rowFeatures
            (sampleRawRow, - decision_function sampleModel (rowFeatures sampleRawRow)).1) :=
  (claim_C2 constFit (some sampleTrainTable) sampleModel sampleScored rfl).1
    (sampleRawRow, - decision_function sampleModel (rowFeatures sampleRawRow))
    (List.mem_singleton_self _)

/-- Claim C4: in every explanation produced by
`generate_shap_explanations`, an entry has
`is_high_risk_contributor = true` exactly when its `shap_contribution` is
strictly negative; no polarity inversion is applied here. -/
theorem claim_C4 (df : List Row) (m : IForestModel NF) (eid : Option EventId)
    (res : ExplanationResult)
    (h : generate_shap_explanations df m eid = some res)
    (e : ExplanationItem) (he : e ∈ res.explanation) :
    e.is_high_risk_contributor = true ↔ e.shap_contribution < 0 := by
  obtain ⟨r, _, hres⟩ := select_of_generate df m eid res h
  subst hres
  rw [mem_explainRow_explanation] at he
  obtain ⟨i, rfl⟩ := he
  exact ⟨of_decide_eq_true, decide_eq_true⟩

theorem claim_C4_witness :
    Vortex.sampleExplanation.explanation.headI.is_high_risk_contributor = true
      ↔ Vortex.sampleExplanation.explanation.headI.shap_contribution < 0 :=
  claim_C4 [sampleRow] sampleModel none sampleExplanation rfl
    sampleExplanation.explanation.headI
    (headI_mem sampleExplanation.explanation
      (explainRow_explanation_ne_nil sampleModel sampleRow.features
        (idToString (chosenId none sampleRow))))

/-- Claim C5: the explanation list returned by
`generate_shap_explanations` is sorted by non-increasing absolute
`shap_contribution`, and entries with equal absolute contribution appear
in the original `MODEL_FEATURES` order (the sort is stable). -/
theorem claim_C5 (df : List Row) (m : IForestModel NF) (eid : Option EventId)
    (res : ExplanationResult)
    (h : generate_shap_explanations df m eid = some res) :
    res.explanation.Pairwise (fun a b =>
      |b.shap_contribution| ≤ |a.shap_contribution| ∧
      (|a.shap_contribution| = |b.shap_contribution| →
        MODEL_FEATURES.indexOf a.feature < MODEL_FEATURES.indexOf b.feature)) := by
  obtain ⟨r, _, hres⟩ := select_of_generate df m eid res h
  subst hres
  have hpw : (explanationEntries m r.features).Pairwise
      (fun a b => MODEL_FEATURES.indexOf a.feature < MODEL_FEATURES.indexOf b.feature) := by
    unfold explanationEntries
    refine List.Pairwise.map (entryOf m r.features) ?_ (List.pairwise_lt_finRange NF)
    intro i j hij
    show MODEL_FEATURES.indexOf (MODEL_FEATURES.getD (i : ℕ) defaultName)
        < MODEL_FEATURES.indexOf (MODEL_FEATURES.getD (j : ℕ) defaultName)
    rw [indexOf_getD, indexOf_getD]
    exact hij
  have hsorted := sortDescBy_pairwise contributionKey
    (fun a b => MODEL_FEATURES.indexOf a.feature < MODEL_FEATURES.indexOf b.feature)
    (explanationEntries m r.features) hpw
  refine List.Pairwise.imp ?_ hsorted
  intro a b hab
  rcases hab with hlt | ⟨heq, hr2⟩
  · refine ⟨le_of_lt hlt, fun hcontra => ?_⟩
    simp only [contributionKey] at hlt
    rw [hcontra] at hlt
    exact absurd hlt (lt_irrefl _)
  · exact ⟨le_of_eq heq, fun _ => hr2⟩

theorem claim_C5_witness :
    Vortex.sampleExplanation.explanation.Pairwise (fun a b =>
      |b.shap_contribution| ≤ |a.shap_contribution| ∧
      (|a.shap_contribution| = |b.shap_contribution| →
        MODEL_FEATURES.indexOf a.feature < MODEL_FEATURES.indexOf b.feature)) :=
  claim_C5 [sampleRow] sampleModel none sampleExplanation rfl

end Vortex

namespace Vortex

/-! ## Lemmas: training-pipeline failure cases -/

theorem isEmpty_false_of_ne_nil {β : Type} (l : List β) (h : l ≠ []) :
    l.isEmpty = false := by
  cases hc : l with
  | nil => exact absurd hc h
  | cons a t => rfl

theorem cols_isEmpty_false_of_all (t : RawTable)
    (h1 : MODEL_FEATURES.all (fun c => t.cols.contains c) = true) :
    t.cols.isEmpty = false := by
  have h2 := List.all_eq_true.mp h1
  have h3 := h2 ("sensitive_file_access") (by decide)
  cases hc : t.cols with
  | nil =>
    rw [hc] at h3
    exact absurd h3 (by decide)
  | cons a l => rfl

theorem load_empty_header (t : RawTable) (h : t.cols = []) :
    load_and_prepare_data (some t) = .error .DataUnavailable := by
  show (if t.cols.isEmpty then (.error .DataUnavailable : Except TrainError RawTable)
      else if MODEL_FEATURES.all (fun c => t.cols.contains c) then
        (if t.cols.contains truthCol then .ok t else .error .SchemaMismatch)
      else .error .SchemaMismatch) = .error .DataUnavailable
  rw [h]
  rfl

theorem load_missing_col (t : RawTable) (hne : t.cols.isEmpty = false)
    (h : MODEL_FEATURES.all (fun c => t.cols.contains c) = false) :
    load_and_prepare_data (some t) = .error .SchemaMismatch := by
  show (if t.cols.isEmpty then (.error .DataUnavailable : Except TrainError RawTable)
      else if MODEL_FEATURES.all (fun c => t.cols.contains c) then
        (if t.cols.contains truthCol then .ok t else .error .SchemaMismatch)
      else .error .SchemaMismatch) = .error .SchemaMismatch
  rw [hne, h]
  rfl

theorem load_missing_truth (t : RawTable)
    (h1 : MODEL_FEATURES.all (fun c => t.cols.contains c) = true)
    (h2 : t.cols.contains truthCol = false) :
    load_and_prepare_data (some t) = .error .SchemaMismatch := by
  show (if t.cols.isEmpty then (.error .DataUnavailable : Except TrainError RawTable)
      else if MODEL_FEATURES.all (fun c => t.cols.contains c) then
        (if t.cols.contains truthCol then .ok t else .error .SchemaMismatch)
      else .error .SchemaMismatch) = .error .SchemaMismatch
  rw [cols_isEmpty_false_of_all t h1, h1, h2]
  rfl

theorem load_ok (t : RawTable)
    (h1 : MODEL_FEATURES.all (fun c => t.cols.contains c) = true)
    (h2 : t.cols.contains truthCol = true) :
    load_and_prepare_data (some t) = .ok t := by
  show (if t.cols.isEmpty then (.error .DataUnavailable : Except TrainError RawTable)
      else if MODEL_FEATURES.all (fun c => t.cols.contains c) then
        (if t.cols.contains truthCol then .ok t else .error .SchemaMismatch)
      else .error .SchemaMismatch) = .ok t
  rw [cols_isEmpty_false_of_all t h1, h1, h2]
  rfl

theorem train_empty (fit : RawTable → IForestModel NF) (t : RawTable)
    (h : t.rows = []) :
    train_isolation_forest fit t = .error .DataUnavailable := by
  simp [train_isolation_forest, h]

theorem pipeline_error_of_load (fit : RawTable → IForestModel NF)
    (file : Option RawTable) (e : TrainError)
    (h : load_and_prepare_data file = .error e) :
    model_training_pipeline fit file = .error e := by
  unfold model_training_pipeline
  rw [h]
  rfl

theorem pipeline_error_of_train (fit : RawTable → IForestModel NF)
    (file : Option RawTable) (t : RawTable) (e : TrainError)
    (hl : load_and_prepare_data file = .ok t)
    (ht : train_isolation_forest fit t = .error e) :
    model_training_pipeline fit file = .error e := by
  unfold model_training_pipeline
  rw [hl]
  simp only [Except.bind]
  rw [ht]

theorem all_cols_false_of_not_forall (t : RawTable)
    (hnc : ¬ (∀ c ∈ MODEL_FEATURES, t.cols.contains c = true)) :
    MODEL_FEATURES.all (fun c => t.cols.contains c) = false := by
  cases hb : MODEL_FEATURES.all (fun c => t.cols.contains c) with
  | false => rfl
  | true => exact absurd (List.all_eq_true.mp hb) hnc

end Vortex

namespace Vortex

/-- Claim C6 (amended): the column selection `df[MODEL_FEATURES]` runs
before any emptiness failure of `model.fit`, so for tables that parse,
`SchemaMismatch` takes precedence over `DataUnavailable`: the fit stage
fails with `SchemaMismatch` whenever a required feature column is absent
from a present table with a parseable header (at least one column, empty
of rows or not); it fails with `DataUnavailable` when the table file is
missing, when the file has no parseable columns at all (the `read_csv`
`EmptyDataError`), or when the table has all required columns (features
and ground-truth label) but zero data rows; and in every one of these
cases no model is produced. -/
theorem claim_C6 (fit : RawTable → IForestModel NF) (file : Option RawTable) :
    (file = none → model_training_pipeline fit file = .error .DataUnavailable) ∧
    (∀ t, file = some t → t.cols = [] →
      model_training_pipeline fit file = .error .DataUnavailable) ∧
    (∀ t, file = some t → t.cols ≠ [] →
      ¬ (∀ c ∈ MODEL_FEATURES, t.cols.contains c = true) →
      model_training_pipeline fit file = .error .SchemaMismatch) ∧
    (∀ t, file = some t →
      (∀ c ∈ MODEL_FEATURES, t.cols.contains c = true) →
      t.cols.contains truthCol = true → t.rows = [] →
      model_training_pipeline fit file = .error .DataUnavailable) ∧
    ((file = none ∨ ∃ t, file = some t ∧
        (t.cols = [] ∨
         ¬ (∀ c ∈ MODEL_FEATURES, t.cols.contains c = true) ∨ t.rows = [])) →
      ∀ m scored, model_training_pipeline fit file ≠ .ok (m, scored)) := by
  refine ⟨?_, ?_, ?_, ?_, ?_⟩
  · intro hfile
    subst hfile
    rfl
  · intro t hfile hcols
    subst hfile
    exact pipeline_error_of_load fit _ _ (load_empty_header t hcols)
  · intro t hfile hne hnc
    subst hfile
    exact pipeline_error_of_load fit _ _
      (load_missing_col t (isEmpty_false_of_ne_nil t.cols hne)
        (all_cols_false_of_not_forall t hnc))
  · intro t hfile hall htr hrows
    subst hfile
    exact pipeline_error_of_train fit _ t _
      (load_ok t (List.all_eq_true.mpr hall) htr) (train_empty fit t hrows)
  · rintro (hfile | ⟨t, hfile, hcase⟩) m scored hok
    · subst hfile
      exact Except.noConfusion hok
    · subst hfile
      rcases hcase with hcols | hnc | hrows
      · rw [pipeline_error_of_load fit _ _ (load_empty_header t hcols)] at hok
        exact Except.noConfusion hok
      · by_cases hc : t.cols = []
        · rw [pipeline_error_of_load fit _ _ (load_empty_header t hc)] at hok
          exact Except.noConfusion hok
        · rw [pipeline_error_of_load fit _ _
            (load_missing_col t (isEmpty_false_of_ne_nil t.cols hc)
              (all_cols_false_of_not_forall t hnc))] at hok
          exact Except.noConfusion hok
      · by_cases hc : t.cols = []
        · rw [pipeline_error_of_load fit _ _ (load_empty_header t hc)] at hok
          exact Except.noConfusion hok
        · cases hb : MODEL_FEATURES.all (fun c => t.cols.contains c) with
          | false =>
            rw [pipeline_error_of_load fit _ _
              (load_missing_col t (isEmpty_false_of_ne_nil t.cols hc) hb)] at hok
            exact Except.noConfusion hok
          | true =>
            cases htr : t.cols.contains truthCol with
            | false =>
              rw [pipeline_error_of_load fit _ _
                (load_missing_truth t hb htr)] at hok
              exact Except.noConfusion hok
            | true =>
              rw [pipeline_error_of_train fit _ t _ (load_ok t hb htr)
                (train_empty fit t hrows)] at hok
              exact Except.noConfusion hok

/-- Claim C6, counterexample to the original statement: a present
header-only table (the CSV file containing only the header line
`event_id`) parses into a table with one column and zero rows, so it is
empty and the claim requires `DataUnavailable`; but it lacks every
required feature column, and the `KeyError` raised by
`df[MODEL_FEATURES]` at `model_train.py` line 52 fires before any
emptiness failure of `model.fit`, so the pipeline actually fails with
`SchemaMismatch`. -/
theorem claim_C6_counterexample :
    headerOnlyTable.rows = [] ∧ headerOnlyTable.cols ≠ [] ∧
    model_training_pipeline constFit (some headerOnlyTable) =
      .error .SchemaMismatch ∧
    model_training_pipeline constFit (some headerOnlyTable) ≠
      .error .DataUnavailable := by
  refine ⟨rfl, List.cons_ne_nil eventCol [], rfl, ?_⟩
  intro h
  rw [show model_training_pipeline constFit (some headerOnlyTable) =
      .error .SchemaMismatch from rfl] at h
  exact TrainError.noConfusion (Except.error.inj h)

theorem claim_C6_witness :
    model_training_pipeline constFit none = .error .DataUnavailable ∧
    model_training_pipeline constFit (some emptyColsTable) =
      .error .DataUnavailable ∧
    model_training_pipeline constFit (some headerOnlyTable) =
      .error .SchemaMismatch ∧
    model_training_pipeline constFit (some emptyRowsTable) =
      .error .DataUnavailable ∧
    model_training_pipeline constFit none ≠ .ok (sampleModel, sampleScored) :=
  ⟨(claim_C6 constFit none).1 rfl,
   (claim_C6 constFit (some emptyColsTable)).2.1 emptyColsTable rfl rfl,
   (claim_C6 constFit (some headerOnlyTable)).2.2.1 headerOnlyTable rfl
     (List.cons_ne_nil eventCol []) (by decide),
   (claim_C6 constFit (some emptyRowsTable)).2.2.2.1 emptyRowsTable rfl
     (by decide) (by decide) rfl,
   (claim_C6 constFit none).2.2.2.2 (Or.inl rfl) sampleModel sampleScored⟩

/-- Claim C7: for every `event_id` matching no row of the scored table,
`generate_shap_explanations` fails (returns `none`, the `EventNotFound`
outcome of lines 150-152) rather than producing any explanation. -/
theorem claim_C7 (df : List Row) (m : IForestModel NF) (eid : EventId)
    (h : ∀ r ∈ df, r.event_id ≠ eid) :
    generate_shap_explanations df m (some eid) = none := by
  simp only [generate_shap_explanations]
  have hf : df.filter (fun r => decide (r.event_id = eid)) = [] := by
    rw [List.filter_eq_nil_iff]
    intro a ha
    simp only [decide_eq_true_eq]
    exact h a ha
  rw [hf]

theorem claim_C7_witness :
    generate_shap_explanations [sampleRow] sampleModel
      (some (EventId.str ("ghost"))) = none :=
  claim_C7 [sampleRow] sampleModel (EventId.str ("ghost")) (by decide)

/-- Claim C8: a path whose resolution is not inside the resolved allowed
directory makes `validate_file_path` fail with `PathEscape`, and
`load_data_and_model` then aborts with `none` without looking at the file
contents; a path resolving inside the allowed directory validates
successfully to its resolved form.  Containment of the resolved path is
the existence of a completing suffix, decided by `withinDir`. -/
theorem claim_C8 (fp allowed : List String) :
    (withinDir (resolvePath allowed) (resolvePath fp) = true ↔
      ∃ rest, resolvePath allowed ++ rest = resolvePath fp) ∧
    (withinDir (resolvePath allowed) (resolvePath fp) = false →
      validate_file_path fp allowed = .error .PathEscape ∧
      ∀ mp md df1 df2 mf,
        load_data_and_model fp allowed mp md df1 mf = none ∧
        load_data_and_model fp allowed mp md df1 mf =
          load_data_and_model fp allowed mp md df2 mf) ∧
    (withinDir (resolvePath allowed) (resolvePath fp) = true →
      validate_file_path fp allowed = .ok (resolvePath fp)) := by
  refine ⟨withinDir_iff _ _, ?_, ?_⟩
  · intro hw
    have hv : validate_file_path fp allowed = .error .PathEscape := by
      simp [validate_file_path, hw]
    refine ⟨hv, ?_⟩
    intro mp md df1 df2 mf
    constructor
    · unfold load_data_and_model
      rw [hv]
    · unfold load_data_and_model
      rw [hv]
  · intro hw
    simp [validate_file_path, hw]

theorem claim_C8_witness :
    validate_file_path [ "root", "data", "f.csv" ] [ "root", "data" ] =
      .ok (resolvePath [ "root", "data", "f.csv" ]) ∧
    validate_file_path [ "root", "data", "..", "secret" ] [ "root", "data" ] =
      .error .PathEscape ∧
    load_data_and_model [ "root", "data", "..", "secret" ] [ "root", "data" ]
      [ "root", "models", "m.pkl" ] [ "root", "models" ] none none = none :=
  ⟨(claim_C8 [ "root", "data", "f.csv" ] [ "root", "data" ]).2.2 (by decide),
   ((claim_C8 [ "root", "data", "..", "secret" ] [ "root", "data" ]).2.1
      (by decide)).1,
   (((claim_C8 [ "root", "data", "..", "secret" ] [ "root", "data" ]).2.1
      (by decide)).2 [ "root", "models", "m.pkl" ] [ "root", "models" ]
      none none none).1⟩

/-- Claim C9: every successful result of `generate_shap_explanations`
contains exactly one entry per trained feature: the `feature` fields of
the explanation list are a permutation of the 11 names of
`MODEL_FEATURES`, whatever event is explained. -/
theorem claim_C9 (df : List Row) (m : IForestModel NF) (eid : Option EventId)
    (res : ExplanationResult)
    (h : generate_shap_explanations df m eid = some res) :
    List.Perm (res.explanation.map ExplanationItem.feature) MODEL_FEATURES ∧
    res.explanation.length = 11 := by
  obtain ⟨r, _, hres⟩ := select_of_generate df m eid res h
  subst hres
  constructor
  · have h1 : List.Perm
        ((sortDescBy contributionKey (explanationEntries m r.features)).map
          ExplanationItem.feature)
        ((explanationEntries m r.features).map ExplanationItem.feature) :=
      List.Perm.map ExplanationItem.feature
        (sortDescBy_perm contributionKey (explanationEntries m r.features))
    have h2 : (explanationEntries m r.features).map ExplanationItem.feature
        = MODEL_FEATURES := by
      rw [explanationEntries, List.map_map]
      exact finRange_map_getD
    rw [← h2]
    exact h1
  · exact explainRow_explanation_length m r.features _

theorem claim_C9_witness :
    List.Perm (Vortex.sampleExplanation.explanation.map ExplanationItem.feature)
      MODEL_FEATURES ∧
    Vortex.sampleExplanation.explanation.length = 11 :=
  claim_C9 [sampleRow] sampleModel none sampleExplanation rfl

/-- Claim C10: the explanation pipeline surfaces every internal fault as
`none` instead of an exception (a failed load makes `xai_pipeline` return
`none`, and `generate_shap_explanations` returns `none` on an empty
table), and on success the returned `event_id` field is the string
rendering of the selected identifier even when that identifier is an
integer. -/
theorem claim_C10 :
    (∀ eid, xai_pipeline none eid = none) ∧
    (∀ m : IForestModel NF, generate_shap_explanations [] m none = none) ∧
    (∀ (df : List Row) (m : IForestModel NF) (z : ℤ) (res : ExplanationResult),
      generate_shap_explanations df m (some (EventId.int z)) = some res →
      res.event_id = toString z) := by
  refine ⟨fun eid => rfl, fun m => rfl, ?_⟩
  intro df m z res h
  obtain ⟨r, _, hres⟩ := select_of_generate df m (some (EventId.int z)) res h
  subst hres
  rfl

theorem claim_C10_witness :
    (explainRow sampleModel sampleRowInt.features
      (idToString (chosenId (some (EventId.int 5)) sampleRowInt))).event_id
      = toString (5 : ℤ) :=
  claim_C10.2.2 [sampleRowInt] sampleModel 5
    (explainRow sampleModel sampleRowInt.features
      (idToString (chosenId (some (EventId.int 5)) sampleRowInt))) rfl

end Vortex
